import Mathlib

/-!
Shallow embedding of `gittip/billing/__init__.py`.

The module mutates two nullable columns of a participant row
(`balanced_account_uri`, `last_bill_result`) and talks to the Balanced
payment gateway.  The gateway and the store are external collaborators,
so every operation is embedded as a pure function from an explicit
environment (the outcomes the gateway returns for each call the code
makes) to a trace of events (gateway calls and parameterized store
writes) plus the value returned to the caller; `none` as a returned
value marks a Python exception propagating to the caller.
-/

namespace Billing

/-- Events of one operation, in program order: the gateway calls made by
the code and the parameterized UPDATE statements it executes. -/
inductive Ev where
  | gwQuery (email : String)
  | gwCreate (email : String)
  | dbSetAccountUri (pid : String) (uri : String)
  | gwMetaSave (uri : String)
  | gwFind (uri : String)
  | gwAttachCard (uri : String) (card : String)
  | dbSetLastBillResult (pid : String) (msg : String)
  | gwInvalidateCard (i : Nat)
  | dbClearBilling (pid : String)
deriving DecidableEq, Repr

/-- Is the event the `UPDATE participants SET balanced_account_uri=%s` write? -/
def Ev.isAccountUriWrite : Ev → Bool
  | .dbSetAccountUri _ _ => true
  | _ => false

/-- Is the event the `UPDATE participants SET last_bill_result=%s` write? -/
def Ev.isLastBillWrite : Ev → Bool
  | .dbSetLastBillResult _ _ => true
  | _ => false

/-- Is the event any local store write? -/
def Ev.isDbWrite : Ev → Bool
  | .dbSetAccountUri _ _ => true
  | .dbSetLastBillResult _ _ => true
  | .dbClearBilling _ => true
  | _ => false

/-- Is the event the card-attach gateway call (`customer.save()` with
`card_uri` set)? -/
def Ev.isAttach : Ev → Bool
  | .gwAttachCard _ _ => true
  | _ => false

/-- Is the event a card-invalidation gateway write (`card.save()`)? -/
def Ev.isInvalidate : Ev → Bool
  | .gwInvalidateCard _ => true
  | _ => false

/-- Is the event the account-creation gateway call? -/
def Ev.isCreate : Ev → Bool
  | .gwCreate _ => true
  | _ => false

/-- The two billing columns of a participant row. -/
structure Participant where
  balanced_account_uri : Option String
  last_bill_result : Option String
deriving DecidableEq, Repr

/-- Effect of one event on the row of participant `pid`; gateway events
do not touch the store. -/
def applyEv (pid : String) (p : Participant) : Ev → Participant
  | .dbSetAccountUri pid' uri =>
      if pid' = pid then { p with balanced_account_uri := some uri } else p
  | .dbSetLastBillResult pid' msg =>
      if pid' = pid then { p with last_bill_result := some msg } else p
  | .dbClearBilling pid' =>
      if pid' = pid then ⟨none, none⟩ else p
  | _ => p

/-- Effect of a whole trace on the row of participant `pid`. -/
def applyTrace (pid : String) (p : Participant) (tr : List Ev) : Participant :=
  tr.foldl (applyEv pid) p

/-- Outcome of `balanced.Account.query.filter(email_address=...).one()`:
an account is found, `NoResultFound` is raised (caught by the code), or
some other exception is raised (propagates). -/
inductive QueryOutcome where
  | found (uri : String)
  | noResult
  | fatal
deriving DecidableEq, Repr

/-- Outcome of `balanced.Account(email_address=...).save()`: the new
account's uri, or an exception (propagates). -/
inductive CreateOutcome where
  | ok (uri : String)
  | fatal
deriving DecidableEq, Repr

/-- Outcome of the meta-data `customer.save()` call (not wrapped in a
`try`): success or an exception (propagates). -/
inductive SaveOutcome where
  | ok
  | fatal
deriving DecidableEq, Repr

/-- Outcome of the card-attach `customer.save()`: success,
`balanced.exc.HTTPError` with message `msg` (caught by the code), or any
other exception (propagates). -/
inductive AttachOutcome where
  | ok
  | httpError (msg : String)
  | fatal
deriving DecidableEq, Repr

/-- Outcome of `balanced.Account.find(uri)` in `associate`: the account
resolves, or an exception is raised (propagates). -/
inductive FindOutcome where
  | ok
  | fatal
deriving DecidableEq, Repr

/-- The gateway's behaviour for the bounded sequence of calls one
`associate` invocation can make. -/
structure AssocEnv where
  query : QueryOutcome
  create : CreateOutcome
  metaSave : SaveOutcome
  find : FindOutcome
  attach : AttachOutcome
deriving DecidableEq, Repr

/-- Does the account-resolution phase of `associate` with a null
reference complete without a propagating exception from the query or
create calls? -/
def AssocEnv.accountResolves (env : AssocEnv) : Bool :=
  match env.query with
  | .found _ => true
  | .noResult => env.create ≠ CreateOutcome.fatal
  | .fatal => false

/-- First half of `associate` (lines 38-60): load or create a Balanced
account.  With a null `balanced_account_uri` the code queries by the
derived email identity; on `NoResultFound` it creates the account; in
both the found and the created case it then executes the `CUSTOMER`
UPDATE and saves the participant id into the account's meta (an HTTP
call).  With a non-null uri it only calls `find`.  Returns the events
in program order and the resolved customer's uri (`none` = exception
propagated). -/
def resolveCustomer (env : AssocEnv) (participant_id : String)
    (balanced_account_uri : Option String) : List Ev × Option String :=
  let email := participant_id ++ "@gittip.com"
  match balanced_account_uri with
  | none =>
    match env.query with
    | .fatal => ([.gwQuery email], none)
    | .found uri =>
      match env.metaSave with
      | .ok =>
        ([.gwQuery email, .dbSetAccountUri participant_id uri, .gwMetaSave uri], some uri)
      | .fatal =>
        ([.gwQuery email, .dbSetAccountUri participant_id uri, .gwMetaSave uri], none)
    | .noResult =>
      match env.create with
      | .fatal => ([.gwQuery email, .gwCreate email], none)
      | .ok uri =>
        match env.metaSave with
        | .ok =>
          ([.gwQuery email, .gwCreate email, .dbSetAccountUri participant_id uri,
            .gwMetaSave uri], some uri)
        | .fatal =>
          ([.gwQuery email, .gwCreate email, .dbSetAccountUri participant_id uri,
            .gwMetaSave uri], none)
  | some uri =>
    match env.find with
    | .ok => ([.gwFind uri], some uri)
    | .fatal => ([.gwFind uri], none)

/-- Trace of one `associate` call together with the value returned to
the caller (`none` = exception propagated, no return value). -/
structure AssocResult where
  trace : List Ev
  ret : Option String
deriving DecidableEq, Repr

/-- Embedding of `associate(participant_id, balanced_account_uri, card_uri)`
(lines 21-88): resolve the customer, set `customer.card_uri` and save;
`balanced.exc.HTTPError` is caught and its message becomes both the
persisted `last_bill_result` and the returned value, success persists
and returns the empty string; any other exception propagates before the
`STANDING` UPDATE runs. -/
def associate (env : AssocEnv) (participant_id : String)
    (balanced_account_uri : Option String) (card_uri : String) : AssocResult :=
  let r := resolveCustomer env participant_id balanced_account_uri
  match r.2 with
  | none => ⟨r.1, none⟩
  | some uri =>
    match env.attach with
    | .ok =>
      ⟨r.1 ++ [.gwAttachCard uri card_uri, .dbSetLastBillResult participant_id ""], some ""⟩
    | .httpError msg =>
      ⟨r.1 ++ [.gwAttachCard uri card_uri, .dbSetLastBillResult participant_id msg], some msg⟩
    | .fatal =>
      ⟨r.1 ++ [.gwAttachCard uri card_uri], none⟩

/-- A card on a Balanced account, with the attributes the module reads.
`none` in an attribute models a missing or `None` value (both are turned
into `""` by `Account._get`). -/
structure Card where
  created_at : Nat
  is_valid : Bool
  last_four : Option String
  expiration_month : Option Int
  expiration_year : Option Int
deriving DecidableEq, Repr

/-- The gateway's behaviour for one `clear` invocation:
`balanced.Account.find` either resolves to an account carrying this card
collection (in collection order) or raises (propagates). -/
structure ClearEnv where
  find : Option (List Card)
deriving Repr

/-- The card-invalidation loop of `clear` (lines 98-101): one
`card.save()` gateway write per card whose `is_valid` flag is set,
tagged with the card's position in the collection; invalid cards are
skipped. -/
def invalidationEvents : Nat → List Card → List Ev
  | _, [] => []
  | i, c :: rest =>
    if c.is_valid then Ev.gwInvalidateCard i :: invalidationEvents (i + 1) rest
    else invalidationEvents (i + 1) rest

/-- Gateway-side card state after the loop of `clear`: every valid card
has been saved with `is_valid = False`, invalid cards are untouched. -/
def clearCards (cards : List Card) : List Card :=
  cards.map fun c => if c.is_valid then { c with is_valid := false } else c

/-- Result of one `clear` call: the `typecheck` assertion failed before
anything ran, an exception propagated after the recorded events, or the
call completed with the recorded events. -/
inductive ClearResult where
  | typeError
  | fatal (trace : List Ev)
  | ok (trace : List Ev)
deriving DecidableEq, Repr

/-- Embedding of `clear(participant_id, balanced_account_uri)`
(lines 91-111).  The
`typecheck` at line 92 requires `balanced_account_uri` to be a unicode
string, not `None` (the aspen helper is a precondition assertion per the
spec), so a null reference raises `TypeError` before any call; otherwise
the account is fetched, each currently valid card is invalidated and
saved individually, and finally the single `CLEAR` UPDATE nulls both
billing columns. -/
def clear (env : ClearEnv) (participant_id : String)
    (balanced_account_uri : Option String) : ClearResult :=
  match balanced_account_uri with
  | none => .typeError
  | some uri =>
    match env.find with
    | none => .fatal [.gwFind uri]
    | some cards =>
      .ok (Ev.gwFind uri :: (invalidationEvents 0 cards ++ [Ev.dbClearBilling participant_id]))

/-- Events of a `clear` result (a `TypeError` happens before any event). -/
def ClearResult.events : ClearResult → List Ev
  | .typeError => []
  | .fatal tr => tr
  | .ok tr => tr

/-- A Balanced account as the read-only card view sees it: its uri and
its card collection. -/
structure BAccount where
  uri : String
  cards : List Card
deriving DecidableEq, Repr

/-- The dict-like `Account` wrapper: `_account` is the underlying
Balanced account, or `none` when constructed from a null uri. -/
structure Account where
  _account : Option BAccount
deriving DecidableEq, Repr

/-- Embedding of `Account.__init__` (lines 123-127): a null uri performs no gateway
call and leaves `_account` as `None`; a non-null uri calls
`balanced.Account.find` (whose failure propagates, modelled by the
lookup returning `none`). -/
def Account.init (gwFind : String → Option BAccount) :
    Option String → List Ev × Option Account
  | none => ([], some ⟨none⟩)
  | some uri =>
    match gwFind uri with
    | some acc => ([Ev.gwFind uri], some ⟨some acc⟩)
    | none => ([Ev.gwFind uri], none)

/-- The comparison `sorted(cards, key=lambda c: c.created_at)` sorts
by. -/
def cardLE (a b : Card) : Bool :=
  a.created_at ≤ b.created_at

/-- Card selection in `Account._get` (lines 137-140): sort the
collection by `created_at` ascending (Python's `sorted` is a stable
merge sort), reverse, take the first card; `IndexError` on an empty
collection is caught. -/
def latestCard (cards : List Card) : Option Card :=
  ((cards.mergeSort cardLE).reverse).head?

/-- Embedding of `Account._get` for a string-valued card attribute: `""` when there
is no account, no card, a missing attribute or a `None` value. -/
def Account.getStr (a : Account) (f : Card → Option String) : String :=
  match a._account with
  | none => ""
  | some acc =>
    match latestCard acc.cards with
    | none => ""
    | some card => (f card).getD ""

/-- Embedding of `Account._get` for an int-valued card attribute; `none` plays the
role of the `""` fallback the Python code produces when there is no
account, no card, a missing attribute or a `None` value (falsy just like
the string). -/
def Account.getInt (a : Account) (f : Card → Option Int) : Option Int :=
  match a._account with
  | none => none
  | some acc =>
    match latestCard acc.cards with
    | none => none
    | some card => f card

/-- A value returned by `Account.__getitem__`: Python `None` (for the
`id` of an account-less view) or a string. -/
inductive ViewVal where
  | absent
  | str (s : String)
deriving DecidableEq, Repr

/-- The three field names the view exposes (spec section 6: the public
read projection). -/
inductive FieldName where
  | id
  | last4
  | expiry
deriving DecidableEq, Repr

/-- Embedding of `Account.__getitem__` (lines 148-167).  `id` is the account's own
uri, or `None` without an account; `last4` prefixes a twelve-star mask
when the last-four attribute is non-empty; `expiry` is formatted
`"%d/%d"` only when both month and year are truthy (a missing, `None`
or zero value is falsy), else `""`. -/
def Account.getitem (a : Account) : FieldName → ViewVal
  | .id =>
    match a._account with
    | some acc => .str acc.uri
    | none => .absent
  | .last4 =>
    let out := a.getStr fun c => c.last_four
    if out ≠ "" then .str ("************" ++ out) else .str out
  | .expiry =>
    match a.getInt (fun c => c.expiration_month), a.getInt (fun c => c.expiration_year) with
    | some m, some y =>
      if m ≠ 0 ∧ y ≠ 0 then .str (toString m ++ "/" ++ toString y) else .str ""
    | _, _ => .str ""

/-- Value of `last4` as computed from one given card (what the view shows when
this card is the most recent one). -/
def cardLast4 (c : Card) : ViewVal :=
  let out := c.last_four.getD ""
  if out ≠ "" then .str ("************" ++ out) else .str out

/-- Value of `expiry` as computed from one given card (what the view shows when
this card is the most recent one). -/
def cardExpiry (c : Card) : ViewVal :=
  match c.expiration_month, c.expiration_year with
  | some m, some y =>
    if m ≠ 0 ∧ y ≠ 0 then .str (toString m ++ "/" ++ toString y) else .str ""
  | _, _ => .str ""

/-- What an `associate` call whose card-attach step resolves with
outcome message `m` must satisfy: the call returns `m`, its trace ends
with the attach call directly followed by the single `last_bill_result`
write of `m` (no earlier event is such a write), and replaying the trace
persists `last_bill_result = m` on the participant's row. -/
def attachOutcomeProp (env : AssocEnv) (pid : String) (uri? : Option String)
    (card u m : String) (p : Participant) : Prop :=
  (associate env pid uri? card).ret = some m ∧
  (∃ l1, (associate env pid uri? card).trace
      = l1 ++ [Ev.gwAttachCard u card, Ev.dbSetLastBillResult pid m] ∧
    l1.countP Ev.isLastBillWrite = 0) ∧
  (applyTrace pid p (associate env pid uri? card).trace).last_bill_result = some m

/-- C7: the card view constructed with a null account reference performs
no gateway call (the lookup function is never consulted, the event trace
is empty) and returns the all-empty/absent projection: `id` is absent,
`last4 = ""` and `expiry = ""`. -/
theorem view_null_reference (gwFind : String → Option BAccount) :
    Account.init gwFind none = ([], some ⟨none⟩) ∧
    Account.getitem ⟨none⟩ .id = .absent ∧
    Account.getitem ⟨none⟩ .last4 = .str "" ∧
    Account.getitem ⟨none⟩ .expiry = .str "" :=
  ⟨rfl, rfl, by decide, by decide⟩

/-- C9: the view's `expiry` is either the empty string or
`"<month>/<year>"` with both month and year present (and truthy); when
either the month or the year is missing (absent, `None`, or the
empty-string fallback), `expiry` is the empty string — never a partially
formatted value. -/
theorem expiry_all_or_nothing (a : Account) :
    (Account.getitem a .expiry = .str "" ∨
      ∃ m y : Int, a.getInt (fun c => c.expiration_month) = some m ∧
        a.getInt (fun c => c.expiration_year) = some y ∧ m ≠ 0 ∧ y ≠ 0 ∧
        Account.getitem a .expiry = .str (toString m ++ "/" ++ toString y)) ∧
    ((a.getInt (fun c => c.expiration_month) = none ∨
      a.getInt (fun c => c.expiration_year) = none) →
      Account.getitem a .expiry = .str "") := by
  constructor
  · cases hm : a.getInt fun c => c.expiration_month with
    | none => left; simp [Account.getitem, hm]
    | some m =>
      cases hy : a.getInt fun c => c.expiration_year with
      | none => left; simp [Account.getitem, hm, hy]
      | some y =>
        by_cases hz : m ≠ 0 ∧ y ≠ 0
        · right; exact ⟨m, y, rfl, rfl, hz.1, hz.2, by simp [Account.getitem, hm, hy, hz]⟩
        · left; simp [Account.getitem, hm, hy, hz]
  · intro h
    rcases h with h | h
    · simp [Account.getitem, h]
    · cases hm : a.getInt fun c => c.expiration_month <;> simp [Account.getitem, h, hm]

/-- C9 witness: a card with `expiration_month = None` and
`expiration_year = 2025` yields `expiry = ""`, never `"None/2025"`. -/
theorem expiry_all_or_nothing_witness :
    Account.getitem ⟨some ⟨"acc", [⟨1, true, some "1234", none, some 2025⟩]⟩⟩ .expiry
      = .str "" :=
  (expiry_all_or_nothing ⟨some ⟨"acc", [⟨1, true, some "1234", none, some 2025⟩]⟩⟩).2
    (Or.inl (by simp [Account.getInt, latestCard]))

/-- C10: `clear` called with a null account reference fails the
`typecheck` assertion before any gateway call or store write: the result
is a `TypeError` and the event trace is empty. -/
theorem clear_null_reference_type_error (env : ClearEnv) (pid : String) :
    clear env pid none = ClearResult.typeError ∧ (clear env pid none).events = [] :=
  ⟨rfl, rfl⟩

/-- C1 counterexample: participant `"alice"` with pre-call
`balanced_account_uri = NULL`; the gateway has no account for the
derived email, a fresh account `"A"` is created, and the card attach
fails with a structured `"declined"` error.  The call reports the
failure, yet the participant's `balanced_account_uri` after the call is
`some "A"`, not its pre-call value `none`: the claim as stated (field
unchanged for every pre-call value) is false. -/
theorem associate_failure_changes_null_account_uri :
    (associate ⟨.noResult, .ok "A", .ok, .ok, .httpError "declined"⟩
        "alice" none "card-x").ret = some "declined" ∧
    (applyTrace "alice" ⟨none, none⟩
        (associate ⟨.noResult, .ok "A", .ok, .ok, .httpError "declined"⟩
          "alice" none "card-x").trace).balanced_account_uri = some "A" ∧
    some "A" ≠ (none : Option String) := by
  refine ⟨rfl, by decide, by decide⟩

/-- C1 (amended): after an associate call that passes a non-null
pre-call account reference and in which the gateway reports a
card-association failure, the participant's `balanced_account_uri` is
unchanged from its pre-call value — no account-reference write occurs at
all in that call.  (When the pre-call reference is NULL, the call first
persists the resolved account's reference, and the card failure does not
null or alter it afterwards; the unchanged-field statement holds only
for non-null pre-call references.) -/
theorem associate_failure_preserves_account_uri (env : AssocEnv)
    (pid u card m : String) (p : Participant)
    (hfail : env.attach = .httpError m) :
    (associate env pid (some u) card).trace.countP Ev.isAccountUriWrite = 0 ∧
    (applyTrace pid p (associate env pid (some u) card).trace).balanced_account_uri
      = p.balanced_account_uri := by
  obtain ⟨q, cr, ms, f, att⟩ := env
  cases hfail
  cases f
  · exact ⟨rfl, by simp [associate, resolveCustomer, applyTrace, applyEv]⟩
  · exact ⟨rfl, rfl⟩

/-- C1 amended witness at a concrete failed call with a non-null
pre-call reference. -/
theorem associate_failure_preserves_account_uri_witness :
    (associate ⟨.found "E", .ok "X", .ok, .ok, .httpError "no"⟩
        "p" (some "u") "c").trace.countP Ev.isAccountUriWrite = 0 ∧
    (applyTrace "p" ⟨some "u", none⟩
        (associate ⟨.found "E", .ok "X", .ok, .ok, .httpError "no"⟩
          "p" (some "u") "c").trace).balanced_account_uri = some "u" :=
  associate_failure_preserves_account_uri
    ⟨.found "E", .ok "X", .ok, .ok, .httpError "no"⟩ "p" "u" "c" "no"
    ⟨some "u", none⟩ rfl

/-- C2 counterexample: with a null pre-call reference the gateway query
finds an existing account for the derived email — the account is reused,
no creation call is made — yet the `CUSTOMER` UPDATE still executes: one
account-reference write, where the claim requires zero when an existing
account is reused. -/
theorem associate_reuse_still_writes_account_uri :
    (associate ⟨.found "E", .ok "unused", .ok, .ok, .ok⟩
        "alice" none "card-x").trace.countP Ev.isCreate = 0 ∧
    (associate ⟨.found "E", .ok "unused", .ok, .ok, .ok⟩
        "alice" none "card-x").trace.countP Ev.isAccountUriWrite = 1 := by
  decide

/-- C2 (amended): `associate` performs the account-reference write
exactly when the supplied reference is null — whether the gateway
account was found by the identity key or newly created — and never when
a non-null reference is reused.  In the null case, provided account
resolution does not abort with an infrastructure error, exactly one
account-reference write occurs and it precedes any card-attach
attempt; in particular when a new account was created there is exactly
one such write. -/
theorem associate_account_write_rules (env : AssocEnv) (pid card : String) :
    (∀ u, (associate env pid (some u) card).trace.countP Ev.isAccountUriWrite = 0) ∧
    (env.accountResolves = true →
      ∃ l1 l2, (associate env pid none card).trace = l1 ++ l2 ∧
        l1.countP Ev.isAccountUriWrite = 1 ∧ l1.countP Ev.isAttach = 0 ∧
        l2.countP Ev.isAccountUriWrite = 0) ∧
    (∀ uri, env.query = .noResult → env.create = .ok uri →
      (associate env pid none card).trace.countP Ev.isAccountUriWrite = 1) := by
  obtain ⟨q, cr, ms, f, att⟩ := env
  refine ⟨?_, ?_, ?_⟩
  · intro u; cases f <;> cases att <;> rfl
  · intro hres
    cases q with
    | found uri =>
      cases ms with
      | ok =>
        cases att with
        | ok =>
          exact ⟨[.gwQuery (pid ++ "@gittip.com"), .dbSetAccountUri pid uri,
            .gwMetaSave uri], [.gwAttachCard uri card, .dbSetLastBillResult pid ""],
            rfl, rfl, rfl, rfl⟩
        | httpError m =>
          exact ⟨[.gwQuery (pid ++ "@gittip.com"), .dbSetAccountUri pid uri,
            .gwMetaSave uri], [.gwAttachCard uri card, .dbSetLastBillResult pid m],
            rfl, rfl, rfl, rfl⟩
        | fatal =>
          exact ⟨[.gwQuery (pid ++ "@gittip.com"), .dbSetAccountUri pid uri,
            .gwMetaSave uri], [.gwAttachCard uri card], rfl, rfl, rfl, rfl⟩
      | fatal =>
        exact ⟨[.gwQuery (pid ++ "@gittip.com"), .dbSetAccountUri pid uri,
          .gwMetaSave uri], [], rfl, rfl, rfl, rfl⟩
    | noResult =>
      cases cr with
      | ok uri =>
        cases ms with
        | ok =>
          cases att with
          | ok =>
            exact ⟨[.gwQuery (pid ++ "@gittip.com"), .gwCreate (pid ++ "@gittip.com"),
              .dbSetAccountUri pid uri, .gwMetaSave uri],
              [.gwAttachCard uri card, .dbSetLastBillResult pid ""], rfl, rfl, rfl, rfl⟩
          | httpError m =>
            exact ⟨[.gwQuery (pid ++ "@gittip.com"), .gwCreate (pid ++ "@gittip.com"),
              .dbSetAccountUri pid uri, .gwMetaSave uri],
              [.gwAttachCard uri card, .dbSetLastBillResult pid m], rfl, rfl, rfl, rfl⟩
          | fatal =>
            exact ⟨[.gwQuery (pid ++ "@gittip.com"), .gwCreate (pid ++ "@gittip.com"),
              .dbSetAccountUri pid uri, .gwMetaSave uri],
              [.gwAttachCard uri card], rfl, rfl, rfl, rfl⟩
        | fatal =>
          exact ⟨[.gwQuery (pid ++ "@gittip.com"), .gwCreate (pid ++ "@gittip.com"),
            .dbSetAccountUri pid uri, .gwMetaSave uri], [], rfl, rfl, rfl, rfl⟩
      | fatal => simp [AssocEnv.accountResolves] at hres
    | fatal => simp [AssocEnv.accountResolves] at hres
  · intro uri hq hc
    cases hq; cases hc
    cases ms <;> cases att <;> rfl

/-- C2 amended witness: a call with a null reference that creates a new
account writes the reference exactly once; a call reusing a non-null
reference writes it zero times. -/
theorem associate_account_write_rules_witness :
    (∃ l1 l2,
      (associate ⟨.noResult, .ok "A", .ok, .ok, .ok⟩ "p" none "c").trace = l1 ++ l2 ∧
        l1.countP Ev.isAccountUriWrite = 1 ∧ l1.countP Ev.isAttach = 0 ∧
        l2.countP Ev.isAccountUriWrite = 0) ∧
    (associate ⟨.noResult, .ok "A", .ok, .ok, .ok⟩
        "p" none "c").trace.countP Ev.isAccountUriWrite = 1 ∧
    (associate ⟨.noResult, .ok "A", .ok, .ok, .ok⟩
        "p" (some "u") "c").trace.countP Ev.isAccountUriWrite = 0 :=
  ⟨(associate_account_write_rules ⟨.noResult, .ok "A", .ok, .ok, .ok⟩ "p" "c").2.1
      (by decide),
   (associate_account_write_rules ⟨.noResult, .ok "A", .ok, .ok, .ok⟩ "p" "c").2.2
      "A" rfl rfl,
   (associate_account_write_rules ⟨.noResult, .ok "A", .ok, .ok, .ok⟩ "p" "c").1 "u"⟩

/-- C4: for every associate call that reaches the card-attach step (the
customer resolved to `u`), gateway success persists and returns `""`,
and a structured gateway failure with message `m` persists and returns
`m`; in both cases exactly one `last_bill_result` write occurs, it
happens after the attach call resolves, and the returned outcome equals
the persisted value. -/
theorem associate_attach_persists_outcome (env : AssocEnv) (pid card u : String)
    (uri? : Option String) (p : Participant)
    (h : (resolveCustomer env pid uri?).2 = some u) :
    (env.attach = .ok → attachOutcomeProp env pid uri? card u "" p) ∧
    (∀ m, env.attach = .httpError m → attachOutcomeProp env pid uri? card u m p) := by
  obtain ⟨q, cr, ms, f, att⟩ := env
  cases uri? with
  | some u' =>
    cases f with
    | fatal => exact absurd h (by simp [resolveCustomer])
    | ok =>
      simp only [resolveCustomer] at h
      cases h
      constructor
      · rintro rfl
        exact ⟨rfl, ⟨[.gwFind u], rfl, rfl⟩,
          by simp [associate, resolveCustomer, applyTrace, applyEv]⟩
      · rintro m rfl
        exact ⟨rfl, ⟨[.gwFind u], rfl, rfl⟩,
          by simp [associate, resolveCustomer, applyTrace, applyEv]⟩
  | none =>
    cases q with
    | fatal => exact absurd h (by simp [resolveCustomer])
    | found uri =>
      cases ms with
      | fatal => exact absurd h (by simp [resolveCustomer])
      | ok =>
        simp only [resolveCustomer] at h
        cases h
        constructor
        · rintro rfl
          exact ⟨rfl, ⟨[.gwQuery (pid ++ "@gittip.com"), .dbSetAccountUri pid u,
            .gwMetaSave u], rfl, rfl⟩,
            by simp [associate, resolveCustomer, applyTrace, applyEv]⟩
        · rintro m rfl
          exact ⟨rfl, ⟨[.gwQuery (pid ++ "@gittip.com"), .dbSetAccountUri pid u,
            .gwMetaSave u], rfl, rfl⟩,
            by simp [associate, resolveCustomer, applyTrace, applyEv]⟩
    | noResult =>
      cases cr with
      | fatal => exact absurd h (by simp [resolveCustomer])
      | ok uri =>
        cases ms with
        | fatal => exact absurd h (by simp [resolveCustomer])
        | ok =>
          simp only [resolveCustomer] at h
          cases h
          constructor
          · rintro rfl
            exact ⟨rfl, ⟨[.gwQuery (pid ++ "@gittip.com"), .gwCreate (pid ++ "@gittip.com"),
              .dbSetAccountUri pid u, .gwMetaSave u], rfl, rfl⟩,
              by simp [associate, resolveCustomer, applyTrace, applyEv]⟩
          · rintro m rfl
            exact ⟨rfl, ⟨[.gwQuery (pid ++ "@gittip.com"), .gwCreate (pid ++ "@gittip.com"),
              .dbSetAccountUri pid u, .gwMetaSave u], rfl, rfl⟩,
              by simp [associate, resolveCustomer, applyTrace, applyEv]⟩

/-- C4 witness: a concrete call that creates account `"A"` and whose
card attach fails with message `"bad"` persists and returns `"bad"`. -/
theorem associate_attach_persists_outcome_witness :
    attachOutcomeProp ⟨.noResult, .ok "A", .ok, .ok, .httpError "bad"⟩
      "p" none "c" "A" "bad" ⟨none, none⟩ :=
  (associate_attach_persists_outcome ⟨.noResult, .ok "A", .ok, .ok, .httpError "bad"⟩
    "p" "c" "A" none ⟨none, none⟩ rfl).2 "bad" rfl

/-- C5: infrastructure failures are not caught.  If the card-attach
call raises a non-`HTTPError` exception, `associate` propagates it: no
value is returned, the trace stops at the attach call, no
`last_bill_result` write occurs anywhere in the call, and the
participant's `last_bill_result` is untouched.  Likewise, when a
non-null account reference fails to resolve, the error propagates with
no local store write at all. -/
theorem associate_fatal_propagates (env : AssocEnv) (pid card u : String)
    (uri? : Option String) (p : Participant) :
    ((resolveCustomer env pid uri?).2 = some u → env.attach = .fatal →
      (associate env pid uri? card).ret = none ∧
      (associate env pid uri? card).trace
        = (resolveCustomer env pid uri?).1 ++ [Ev.gwAttachCard u card] ∧
      (associate env pid uri? card).trace.countP Ev.isLastBillWrite = 0 ∧
      (applyTrace pid p (associate env pid uri? card).trace).last_bill_result
        = p.last_bill_result) ∧
    (env.find = .fatal →
      (associate env pid (some u) card).ret = none ∧
      (associate env pid (some u) card).trace = [Ev.gwFind u] ∧
      (associate env pid (some u) card).trace.countP Ev.isDbWrite = 0) := by
  obtain ⟨q, cr, ms, f, att⟩ := env
  constructor
  · intro h hat
    cases hat
    cases uri? with
    | some u' =>
      cases f with
      | fatal => exact absurd h (by simp [resolveCustomer])
      | ok =>
        simp only [resolveCustomer] at h
        cases h
        exact ⟨rfl, rfl, rfl, by simp [associate, resolveCustomer, applyTrace, applyEv]⟩
    | none =>
      cases q with
      | fatal => exact absurd h (by simp [resolveCustomer])
      | found uri =>
        cases ms with
        | fatal => exact absurd h (by simp [resolveCustomer])
        | ok =>
          simp only [resolveCustomer] at h
          cases h
          exact ⟨rfl, rfl, rfl, by simp [associate, resolveCustomer, applyTrace, applyEv]⟩
      | noResult =>
        cases cr with
        | fatal => exact absurd h (by simp [resolveCustomer])
        | ok uri =>
          cases ms with
          | fatal => exact absurd h (by simp [resolveCustomer])
          | ok =>
            simp only [resolveCustomer] at h
            cases h
            exact ⟨rfl, rfl, rfl,
              by simp [associate, resolveCustomer, applyTrace, applyEv]⟩
  · intro hf
    cases hf
    exact ⟨rfl, rfl, rfl⟩

/-- C5 witness: concrete infrastructure failures — a fatal card-attach
error after resolving account `"A"`, and an unresolvable non-null
reference — propagate with no local write. -/
theorem associate_fatal_propagates_witness :
    ((associate ⟨.noResult, .ok "A", .ok, .ok, .fatal⟩ "p" none "c").ret = none ∧
      (associate ⟨.noResult, .ok "A", .ok, .ok, .fatal⟩ "p" none "c").trace
        = (resolveCustomer ⟨.noResult, .ok "A", .ok, .ok, .fatal⟩ "p" none).1
            ++ [Ev.gwAttachCard "A" "c"] ∧
      (associate ⟨.noResult, .ok "A", .ok, .ok, .fatal⟩
          "p" none "c").trace.countP Ev.isLastBillWrite = 0 ∧
      (applyTrace "p" ⟨none, some "x"⟩
          (associate ⟨.noResult, .ok "A", .ok, .ok, .fatal⟩
            "p" none "c").trace).last_bill_result = some "x") ∧
    ((associate ⟨.noResult, .ok "A", .ok, .fatal, .ok⟩ "p" (some "u") "c").ret = none ∧
      (associate ⟨.noResult, .ok "A", .ok, .fatal, .ok⟩
          "p" (some "u") "c").trace = [Ev.gwFind "u"] ∧
      (associate ⟨.noResult, .ok "A", .ok, .fatal, .ok⟩
          "p" (some "u") "c").trace.countP Ev.isDbWrite = 0) :=
  ⟨(associate_fatal_propagates ⟨.noResult, .ok "A", .ok, .ok, .fatal⟩
      "p" "c" "A" none ⟨none, some "x"⟩).1 rfl rfl,
   (associate_fatal_propagates ⟨.noResult, .ok "A", .ok, .fatal, .ok⟩
      "p" "c" "u" none ⟨none, some "x"⟩).2 rfl⟩

theorem mem_invEvents (cs : List Card) : ∀ i e, e ∈ invalidationEvents i cs →
    ∃ k, i ≤ k ∧ e = Ev.gwInvalidateCard k := by
  induction cs with
  | nil => intro i e h; simp [invalidationEvents] at h
  | cons c rest ih =>
    intro i e h
    cases hv : c.is_valid
    · rw [invalidationEvents, if_neg (by simp [hv])] at h
      obtain ⟨k, hk, rfl⟩ := ih (i + 1) e h
      exact ⟨k, by omega, rfl⟩
    · rw [invalidationEvents, if_pos (by simp [hv])] at h
      rcases List.mem_cons.mp h with rfl | h
      · exact ⟨i, Nat.le_refl i, rfl⟩
      · obtain ⟨k, hk, rfl⟩ := ih (i + 1) e h
        exact ⟨k, by omega, rfl⟩

theorem invEvents_count_lt (cs : List Card) (i k : Nat) (hk : k < i) :
    (invalidationEvents i cs).count (Ev.gwInvalidateCard k) = 0 := by
  rw [List.count_eq_zero]
  intro hmem
  obtain ⟨k', hk', he⟩ := mem_invEvents cs i _ hmem
  cases he
  omega

theorem invEvents_count (cs : List Card) : ∀ i j (h : j < cs.length),
    (invalidationEvents i cs).count (Ev.gwInvalidateCard (i + j)) =
      if (cs.get ⟨j, h⟩).is_valid then 1 else 0 := by
  induction cs with
  | nil => intro i j h; exact absurd h (by simp)
  | cons c rest ih =>
    intro i j h
    cases hv : c.is_valid
    · rw [invalidationEvents, if_neg (by simp [hv])]
      cases j with
      | zero => simpa [hv] using invEvents_count_lt rest (i + 1) i (by omega)
      | succ j' =>
        have hj' : j' < rest.length := by simpa using h
        have := ih (i + 1) j' hj'
        rw [show i + (j' + 1) = i + 1 + j' by omega, this]
        rfl
    · rw [invalidationEvents, if_pos (by simp [hv])]
      cases j with
      | zero =>
        rw [List.count_cons]
        simp [hv, invEvents_count_lt rest (i + 1) i (by omega)]
      | succ j' =>
        rw [List.count_cons]
        have hj' : j' < rest.length := by simpa using h
        have hne : (Ev.gwInvalidateCard i == Ev.gwInvalidateCard (i + (j' + 1))) = false := by
          simp
        rw [hne, show i + (j' + 1) = i + 1 + j' by omega, ih (i + 1) j' hj']
        rfl

theorem invEvents_countP_dbWrite (cs : List Card) (i : Nat) :
    (invalidationEvents i cs).countP Ev.isDbWrite = 0 := by
  rw [List.countP_eq_zero]
  intro e he
  obtain ⟨k, _, rfl⟩ := mem_invEvents cs i e he
  simp [Ev.isDbWrite]

theorem applyTrace_invEvents (pid : String) (cs : List Card) :
    ∀ i p, applyTrace pid p (invalidationEvents i cs) = p := by
  induction cs with
  | nil => intro i p; rfl
  | cons c rest ih =>
    intro i p
    cases hv : c.is_valid
    · rw [invalidationEvents, if_neg (by simp [hv])]
      exact ih (i + 1) p
    · rw [invalidationEvents, if_pos (by simp [hv])]
      exact ih (i + 1) p

theorem invEvents_clearCards (cs : List Card) :
    ∀ i, invalidationEvents i (clearCards cs) = [] := by
  induction cs with
  | nil => intro i; rfl
  | cons c rest ih =>
    intro i
    cases hv : c.is_valid <;>
      simp only [clearCards, List.map_cons] at * <;>
      simp [invalidationEvents, hv, ih (i + 1)]

/-- C3: `clear` on a resolvable account fetches the account, then emits
exactly one card-invalidation gateway write per card currently marked
valid (tagged with the card's position; invalid cards get none, and
every event of the loop is an invalidation, never a store write), and
finally performs the single store write nulling both billing columns —
the only store write of the call, and the last event of the trace, so
the local reset never precedes a card-invalidation write. -/
theorem clear_invalidates_then_resets (env : ClearEnv) (pid uri : String)
    (cards : List Card) (h : env.find = some cards) :
    clear env pid (some uri)
      = .ok (Ev.gwFind uri :: (invalidationEvents 0 cards ++ [Ev.dbClearBilling pid])) ∧
    (∀ j : Fin cards.length,
      (invalidationEvents 0 cards).count (Ev.gwInvalidateCard j.1)
        = if (cards.get j).is_valid then 1 else 0) ∧
    (∀ e ∈ invalidationEvents 0 cards, e.isInvalidate = true) ∧
    (Ev.gwFind uri :: (invalidationEvents 0 cards ++ [Ev.dbClearBilling pid])).countP
        Ev.isDbWrite = 1 ∧
    (Ev.gwFind uri :: (invalidationEvents 0 cards ++ [Ev.dbClearBilling pid])).getLast?
      = some (Ev.dbClearBilling pid) := by
  refine ⟨by simp [clear, h], ?_, ?_, ?_, ?_⟩
  · intro j
    have := invEvents_count cards 0 j.1 j.2
    rwa [Nat.zero_add] at this
  · intro e he
    obtain ⟨k, _, rfl⟩ := mem_invEvents cards 0 e he
    rfl
  · rw [List.countP_cons, List.countP_append, invEvents_countP_dbWrite]
    rfl
  · rw [← List.cons_append]
    exact List.getLast?_concat _

/-- C3 witness: an account with one valid and one invalid card yields
one invalidation write (for position 0) followed by the reset write. -/
theorem clear_invalidates_then_resets_witness :
    clear ⟨some [⟨1, true, none, none, none⟩, ⟨2, false, none, none, none⟩]⟩
        "p" (some "u")
      = .ok [Ev.gwFind "u", Ev.gwInvalidateCard 0, Ev.dbClearBilling "p"] :=
  (clear_invalidates_then_resets
    ⟨some [⟨1, true, none, none, none⟩, ⟨2, false, none, none, none⟩]⟩ "p" "u"
    [⟨1, true, none, none, none⟩, ⟨2, false, none, none, none⟩] rfl).1

/-- C6: after a first `clear` fully resets the participant's row, a
second `clear` against the same (now card-less-of-valid-cards) gateway
account performs zero card-invalidation writes and merely rewrites NULL
over NULL: the store state is unchanged by the second call. -/
theorem clear_twice_idempotent (env1 env2 : ClearEnv) (pid uri : String)
    (cards : List Card) (p : Participant)
    (h1 : env1.find = some cards) (h2 : env2.find = some (clearCards cards)) :
    clear env1 pid (some uri)
      = .ok (Ev.gwFind uri :: (invalidationEvents 0 cards ++ [Ev.dbClearBilling pid])) ∧
    applyTrace pid p
        (Ev.gwFind uri :: (invalidationEvents 0 cards ++ [Ev.dbClearBilling pid]))
      = ⟨none, none⟩ ∧
    clear env2 pid (some uri) = .ok [Ev.gwFind uri, Ev.dbClearBilling pid] ∧
    ([Ev.gwFind uri, Ev.dbClearBilling pid] : List Ev).countP Ev.isInvalidate = 0 ∧
    applyTrace pid ⟨none, none⟩ [Ev.gwFind uri, Ev.dbClearBilling pid] = ⟨none, none⟩ := by
  refine ⟨by simp [clear, h1], ?_, ?_, rfl, by simp [applyTrace, applyEv]⟩
  · show applyTrace pid p (invalidationEvents 0 cards ++ [Ev.dbClearBilling pid])
      = ⟨none, none⟩
    rw [applyTrace, List.foldl_append]
    rw [show List.foldl (applyEv pid) p (invalidationEvents 0 cards)
      = applyTrace pid p (invalidationEvents 0 cards) from rfl]
    rw [applyTrace_invEvents pid cards 0 p]
    simp [applyEv]
  · simp [clear, h2, invEvents_clearCards]

/-- C6 witness: a participant cleared once (one valid card invalidated)
and cleared again — the second call has no invalidation write and leaves
the store at `(NULL, NULL)`. -/
theorem clear_twice_idempotent_witness :
    clear ⟨some (clearCards [⟨1, true, none, none, none⟩])⟩ "p" (some "u")
      = .ok [Ev.gwFind "u", Ev.dbClearBilling "p"] :=
  (clear_twice_idempotent ⟨some [⟨1, true, none, none, none⟩]⟩
    ⟨some (clearCards [⟨1, true, none, none, none⟩])⟩ "p" "u"
    [⟨1, true, none, none, none⟩] ⟨some "u", some ""⟩ rfl rfl).2.2.1

theorem latestCard_eq_max (cards : List Card) (c : Card)
    (hnd : (cards.map Card.created_at).Nodup)
    (hc : c ∈ cards)
    (hmax : ∀ d ∈ cards, d.created_at ≤ c.created_at) :
    latestCard cards = some c := by
  have total : ∀ a b : Card, cardLE a b || cardLE b a := by
    intro a b
    simp [cardLE]
    omega
  have trans : ∀ a b d : Card, cardLE a b → cardLE b d → cardLE a d := by
    intro a b d
    simp [cardLE]
    omega
  have hs := List.sorted_mergeSort trans total cards
  have hrev : (cards.mergeSort cardLE).reverse.Pairwise (fun a b : Card => cardLE b a) :=
    List.pairwise_reverse.mpr hs
  obtain ⟨c', t, ht⟩ : ∃ c' t, (cards.mergeSort cardLE).reverse = c' :: t := by
    cases hr : (cards.mergeSort cardLE).reverse with
    | nil =>
      exfalso
      have : cards.mergeSort cardLE = [] := by
        have := congrArg List.reverse hr
        simpa using this
      have : c ∈ ([] : List Card) := this ▸ List.mem_mergeSort.mpr hc
      simp at this
    | cons a b => exact ⟨a, b, rfl⟩
  have hlc : latestCard cards = some c' := by
    rw [latestCard, ht]
    rfl
  have hc'mem : c' ∈ cards := by
    have h1 : c' ∈ (cards.mergeSort cardLE).reverse := ht ▸ List.mem_cons_self c' t
    exact List.mem_mergeSort.mp (List.mem_reverse.mp h1)
  have hmax' : ∀ d ∈ cards, d.created_at ≤ c'.created_at := by
    intro d hd
    have hdl : d ∈ (cards.mergeSort cardLE).reverse :=
      List.mem_reverse.mpr (List.mem_mergeSort.mpr hd)
    rw [ht] at hdl
    rcases List.mem_cons.mp hdl with rfl | hdt
    · exact Nat.le_refl _
    · have := (List.pairwise_cons.mp (ht ▸ hrev)).1 d hdt
      simpa [cardLE] using this
  have heq : c.created_at = c'.created_at :=
    Nat.le_antisymm (hmax' c hc) (hmax c' hc'mem)
  have : c = c' := List.inj_on_of_nodup_map hnd hc hc'mem heq
  rw [hlc, ← this]

/-- C8: on an account whose card collection has at least two cards with
pairwise-distinct creation times, the view's card-derived fields
(`last4`, `expiry`) are computed from the card with the latest creation
time: the collection is sorted by `created_at` descending and the first
card is taken. -/
theorem view_uses_latest_card (uri : String) (cards : List Card) (c : Card)
    (_h2 : 2 ≤ cards.length)
    (hnd : (cards.map Card.created_at).Nodup)
    (hc : c ∈ cards)
    (hmax : ∀ d ∈ cards, d.created_at ≤ c.created_at) :
    latestCard cards = some c ∧
    Account.getitem ⟨some ⟨uri, cards⟩⟩ .last4 = cardLast4 c ∧
    Account.getitem ⟨some ⟨uri, cards⟩⟩ .expiry = cardExpiry c := by
  have hlc := latestCard_eq_max cards c hnd hc hmax
  refine ⟨hlc, ?_, ?_⟩
  · simp [Account.getitem, Account.getStr, hlc, cardLast4]
  · simp [Account.getitem, Account.getInt, hlc, cardExpiry]

/-- C8 witness: two valid cards created at times 1 and 2 — the view
shows the fields of the card created at time 2. -/
theorem view_uses_latest_card_witness :
    latestCard [⟨1, true, some "1111", some 1, some 2026⟩,
        ⟨2, true, some "2222", some 3, some 2027⟩]
      = some ⟨2, true, some "2222", some 3, some 2027⟩ ∧
    Account.getitem ⟨some ⟨"acc", [⟨1, true, some "1111", some 1, some 2026⟩,
        ⟨2, true, some "2222", some 3, some 2027⟩]⟩⟩ .last4
      = cardLast4 ⟨2, true, some "2222", some 3, some 2027⟩ ∧
    Account.getitem ⟨some ⟨"acc", [⟨1, true, some "1111", some 1, some 2026⟩,
        ⟨2, true, some "2222", some 3, some 2027⟩]⟩⟩ .expiry
      = cardExpiry ⟨2, true, some "2222", some 3, some 2027⟩ :=
  view_uses_latest_card "acc"
    [⟨1, true, some "1111", some 1, some 2026⟩, ⟨2, true, some "2222", some 3, some 2027⟩]
    ⟨2, true, some "2222", some 3, some 2027⟩
    (by decide) (by decide) (by decide) (by decide)

end Billing
